import Mathlib

/-!
Formal model of the measurement and post-selection tutorial.

The repository consists of a tutorial notebook
(`src/tutorial/run_post_selection.ipynb`) that drives an external
quantum-optics simulation engine: it builds `Program`s of operations
(Fock-state preparation, a beamsplitter, Fock and homodyne measurements
with optional post-selection, measurement-conditioned gates) over a fixed
number of modes and executes them with an `Engine`, obtaining `Results`.
The engine itself is not part of the repository, so its semantics below is
modelled from the spec: a distribution over photon-count configurations,
mutated sequentially by operations; measurements sample or post-select an
outcome, condition the distribution on it, record it and reset the
measured mode to vacuum.
-/

namespace GKPSens

/-- A configuration of the modes: one photon count per mode. -/
abbrev Config := List Nat

/-- Photon count of mode `i` in a configuration (0 beyond the declared modes). -/
def getCount (c : Config) (i : Nat) : Nat := c.getD i 0

/-- Replace the photon count of mode `i`. -/
def setCount (c : Config) (i v : Nat) : Config := c.set i v

/-- Modelled from the spec: the numerical state representation is external
(spec section 1 and 9); for photon-count claims the state is modelled as a
weighted list of count configurations (weights are the measurement
probabilities of the corresponding outcomes). -/
abbrev Dist := List (ℚ × Config)

/-- Total probability mass of a weighted configuration list. -/
def totalMass (d : Dist) : ℚ := (d.map Prod.fst).sum

/-- Integer part of the 50-50 beamsplitter transition amplitude from the
two-mode input `|n, m⟩` to the output `|k, n + m − k⟩`: the signed sum over
the ways `j` photons from the first input and `k − j` from the second reach
the first output. -/
def bsCoeff (n m k : Nat) : Int :=
  ((List.range (n + 1)).map (fun j =>
    if j ≤ k ∧ k - j ≤ m then
      ((-1 : Int)) ^ (m - (k - j)) * n.choose j * m.choose (k - j)
    else 0)).sum

/-- Modelled from the spec: the default number-conserving two-mode
interaction (the 50-50 beamsplitter `BSgate()`). `bsProb n m k` is the
probability that input counts `(n, m)` produce output counts
`(k, n + m − k)`; outputs not conserving the total count have
probability zero (they do not appear in `applyBS` at all). -/
def bsProb (n m k : Nat) : ℚ :=
  ((bsCoeff n m k) ^ 2 * (Nat.factorial k) * (Nat.factorial (n + m - k)) : ℚ) /
    ((2 : ℚ) ^ (n + m) * (Nat.factorial n) * (Nat.factorial m))

/-- Apply the number-conserving two-mode interaction to modes `i` and `j`:
each configuration with counts `(n, m)` on those modes branches into the
configurations `(k, n + m − k)`, `k ≤ n + m`, with weight `bsProb n m k`. -/
def applyBS (d : Dist) (i j : Nat) : Dist :=
  d.flatMap (fun pc =>
    let n := getCount pc.2 i
    let m := getCount pc.2 j
    (List.range (n + m + 1)).map (fun k =>
      (pc.1 * bsProb n m k, setCount (setCount pc.2 i k) j (n + m - k))))

/-- Errors an execution can fail with (spec section 7). -/
inductive EngErr where
  | zeroProbability : EngErr
  | unmeasuredReference : EngErr
deriving DecidableEq, Repr

/-- Restrict the distribution to configurations whose count on mode `i` is
the outcome `v` and renormalise; if the conditioning event has zero mass,
fail with the zero-probability measurement error. -/
def condition (d : Dist) (i v : Nat) : Except EngErr Dist :=
  let d' := d.filter (fun pc => getCount pc.2 i == v)
  let t := totalMass d'
  if t = 0 then .error .zeroProbability
  else .ok (d'.map (fun pc => (pc.1 / t, pc.2)))

/-- Reset the measured mode `i` to the vacuum state in every configuration,
leaving all other modes untouched. -/
def resetMode (d : Dist) (i : Nat) : Dist :=
  d.map (fun pc => (pc.1, setCount pc.2 i 0))

/-- Inverse-CDF sampling: walk the weighted list, picking the first entry
whose weight bucket contains `r`; the last entry is the catch-all. -/
def samplePair : Dist → ℚ → ℚ × Config
  | [], _ => (0, [])
  | [e], _ => e
  | e :: e' :: rest, r => if r < e.1 then e else samplePair (e' :: rest) (r - e.1)

/-- A gate parameter: a numeric constant, a reference to a previously
measured mode (`q[i].par`), or classical processing on top of these
(powers, sums, and the library maths functions, indexed abstractly and
interpreted by the ambient `I`). -/
inductive Param where
  | const : ℚ → Param
  | reg : Nat → Param
  | pow : Param → Nat → Param
  | add : Param → Param → Param
  | fn : Nat → Param → Param
deriving DecidableEq

/-- Resolve a parameter against the record of measured values: a reference
to an unmeasured mode is a resolution error; a measured reference resolves
to exactly the recorded outcome. `I` interprets the library maths
functions. -/
def evalParam (I : Nat → ℚ → ℚ) (rec : List (Option Nat)) : Param → Except EngErr ℚ
  | .const x => .ok x
  | .reg i =>
      match rec.getD i none with
      | some v => .ok (v : ℚ)
      | none => .error .unmeasuredReference
  | .pow p n =>
      match evalParam I rec p with
      | .ok x => .ok (x ^ n)
      | .error e => .error e
  | .add p q =>
      match evalParam I rec p, evalParam I rec q with
      | .ok x, .ok y => .ok (x + y)
      | .error e, _ => .error e
      | _, .error e => .error e
  | .fn f p =>
      match evalParam I rec p with
      | .ok x => .ok (I f x)
      | .error e => .error e

/-- The operations the tutorial uses: Fock-state preparation, the default
beamsplitter, photon-count measurement (with optional post-selection),
homodyne measurement with post-selection, and a measurement-conditioned
displacement gate. -/
inductive Op where
  | fock : Nat → Nat → Op
  | bs : Nat → Nat → Op
  | measureFock : Option Nat → Nat → Op
  | homodyneSel : ℚ → Nat → Op
  | dgate : Param → Nat → Op

/-- A program: an ordered list of operations over a declared number of
modes. -/
structure Program where
  numModes : Nat
  ops : List Op

/-- Modelled from the spec: the engine session state. The distribution is
the current simulated state; `record` holds, per mode, the last measured
outcome of the session (used to resolve measurement-conditioned
parameters); `measuredNow` holds the outcomes measured during the current
run (it becomes the run's Results); `applied` logs each gate application
with its resolved parameter value. -/
structure EngState where
  numModes : Nat
  dist : Dist
  record : List (Option Nat)
  measuredNow : List (Option Nat)
  applied : List (Nat × ℚ)
deriving DecidableEq

/-- Record outcome `v` for mode `i`. -/
def updRec (rec : List (Option Nat)) (i v : Nat) : List (Option Nat) :=
  rec.set i (some v)

/-- Apply one operation to the engine state, consuming the random stream
`rs` when a measurement samples. A Fock measurement conditions on the
post-selected outcome when one is given, otherwise on the sampled outcome;
either way it records the outcome and resets the measured mode to vacuum.
A post-selected homodyne measurement performs no zero-probability check
(the known limitation of the spec, section 7). -/
def applyOp (I : Nat → ℚ → ℚ) (st : EngState) (rs : List ℚ) :
    Op → Except EngErr (EngState × List ℚ)
  | .fock n i =>
      .ok ({ st with dist := st.dist.map (fun pc => (pc.1, setCount pc.2 i n)) }, rs)
  | .bs i j =>
      .ok ({ st with dist := applyBS st.dist i j }, rs)
  | .measureFock (some v) i =>
      match condition st.dist i v with
      | .error e => .error e
      | .ok d' =>
          .ok ({ st with dist := resetMode d' i,
                         record := updRec st.record i v,
                         measuredNow := updRec st.measuredNow i v }, rs)
  | .measureFock none i =>
      let r := rs.headD 0
      let v := getCount (samplePair st.dist r).2 i
      match condition st.dist i v with
      | .error e => .error e
      | .ok d' =>
          .ok ({ st with dist := resetMode d' i,
                         record := updRec st.record i v,
                         measuredNow := updRec st.measuredNow i v }, rs.tail)
  | .homodyneSel _ i =>
      .ok ({ st with dist := resetMode st.dist i }, rs)
  | .dgate p i =>
      match evalParam I st.record p with
      | .error e => .error e
      | .ok v => .ok ({ st with applied := st.applied ++ [(i, v)] }, rs)

/-- Run a list of operations in order, threading state and random stream. -/
def runOps (I : Nat → ℚ → ℚ) :
    List Op → EngState → List ℚ → Except EngErr (EngState × List ℚ)
  | [], st, rs => .ok (st, rs)
  | op :: ops, st, rs =>
      match applyOp I st rs op with
      | .error e => .error e
      | .ok (st', rs') => runOps I ops st' rs'

/-- The Results of a run: per mode, the outcome measured during that run
(`none` for a mode not measured in the run). -/
structure Results where
  numModes : Nat
  record : List (Option Nat)
deriving DecidableEq

/-- The sample list a run exposes: the outcomes of the modes measured in
the run, in mode-index order. -/
def Results.samples (r : Results) : List Nat :=
  r.record.filterMap id

/-- Execute a Program against the current engine state: clear the per-run
measurement record, apply the operations in order, and package the
outcomes measured during the run as Results. The session state persists
into the next run unless the engine is reset. -/
def engRun (I : Nat → ℚ → ℚ) (p : Program) (st : EngState) (rs : List ℚ) :
    Except EngErr (Results × EngState × List ℚ) :=
  match runOps I p.ops { st with measuredNow := List.replicate st.numModes none } rs with
  | .error e => .error e
  | .ok (st', rs') => .ok (⟨p.numModes, st'.measuredNow⟩, st', rs')

/-- A fresh engine: every mode in the vacuum state, nothing measured. -/
def initEng (n : Nat) : EngState :=
  ⟨n, [(1, List.replicate n 0)], List.replicate n none, List.replicate n none, []⟩

/-- Trivial interpretation of the library maths functions, used where a
program contains none of them. -/
def defaultI : Nat → ℚ → ℚ := fun _ x => x

/-- The first circuit of the tutorial (cell 2): prepare `|2, 3⟩`, apply the
default beamsplitter, and measure mode 0. -/
def cell2prog : Program :=
  ⟨2, [.fock 2 0, .fock 3 1, .bs 0 1, .measureFock none 0]⟩

/-- The follow-up circuit (cell 6): measure mode 1 on the same engine. -/
def cell6prog : Program :=
  ⟨2, [.measureFock none 1]⟩

/-- The post-selected circuit (cell 10): prepare `|2, 3⟩`, beamsplitter,
measure mode 0 post-selecting outcome 0, then measure mode 1. -/
def cell10prog : Program :=
  ⟨2, [.fock 2 0, .fock 3 1, .bs 0 1, .measureFock (some 0) 0,
       .measureFock none 1]⟩

/-- The zero-probability scenario of the cell-13 warning: post-select the
pair of outcomes `(1, 2)`, which does not conserve the photon number 5. -/
def cell13prog : Program :=
  ⟨2, [.fock 2 0, .fock 3 1, .bs 0 1, .measureFock (some 1) 0,
       .measureFock (some 2) 1]⟩

/-- The measurement-conditioned program of cell 20: measure mode 0, then
displace mode 1 by the square of the measured value. -/
def cell20prog : Program :=
  ⟨2, [.measureFock none 0, .dgate (.pow (.reg 0) 2) 1]⟩

/-- Index of the library cosine in the abstract maths-function family. -/
def cosIdx : Nat := 0

/-- The classical-processing program of cell 22: measure mode 0, then
displace mode 1 by `cos` of the measured value plus 2. -/
def cell22prog : Program :=
  ⟨2, [.measureFock none 0, .dgate (.add (.fn cosIdx (.reg 0)) (.const 2)) 1]⟩

/-- The generic two-measurement circuit behind the conservation property:
prepare `|n, m⟩`, beamsplitter, measure both modes. -/
def progNM (n m : Nat) : Program :=
  ⟨2, [.fock n 0, .fock m 1, .bs 0 1, .measureFock none 0, .measureFock none 1]⟩

/-- Modelled from the spec: the stochastic sampling steps draw from the
global pseudo-random stream, which the script fixes with
`np.random.seed(42)`; the generator itself is external numerics, modelled
as a linear congruential step. -/
def lcgStep (s : Nat) : Nat := (1103515245 * s + 12345) % 2147483648

/-- The `i`-th raw value of the pseudo-random stream for a given seed. -/
def lcgVals (s : Nat) : Nat → Nat
  | 0 => lcgStep s
  | n + 1 => lcgStep (lcgVals s n)

/-- The first `len` uniform samples in `[0, 1)` derived from a seed. -/
def randomsFromSeed (s len : Nat) : List ℚ :=
  (List.range len).map (fun i => ((lcgVals s i % 1000000 : Nat) : ℚ) / 1000000)

/-- The stochastic part of the notebook: run the cell-2 circuit and then
the cell-6 circuit on the same engine, all randomness drawn from the
stream determined by the global seed; returns both runs' sample lists. -/
def notebookSamples (s : Nat) : Option (List Nat × List Nat) :=
  (engRun defaultI cell2prog (initEng 2) (randomsFromSeed s 2)).toOption.bind
    (fun x => (engRun defaultI cell6prog x.2.1 x.2.2).toOption.map
      (fun y => (x.1.samples, y.1.samples)))

theorem samplePair_mem : ∀ (d : Dist) (r : ℚ), d ≠ [] → samplePair d r ∈ d
  | [], _, h => absurd rfl h
  | [_], _, _ => List.mem_singleton.mpr rfl
  | e :: e' :: rest, r, _ => by
      rw [samplePair]
      split
      · exact List.mem_cons_self _ _
      · exact List.mem_cons_of_mem _ (samplePair_mem (e' :: rest) (r - e.1) (by simp))

theorem getCount_setCount_self (c : Config) (i : Nat) : getCount (setCount c i 0) i = 0 := by
  rcases Nat.lt_or_ge i c.length with h | h
  · rw [getCount, setCount, List.getD_eq_getElem?_getD, List.getElem?_set_self h]
    rfl
  · rw [getCount, setCount, List.set_eq_of_length_le h, List.getD_eq_default _ _ h]

theorem getCount_setCount_ne (c : Config) (i j v : Nat) (h : j ≠ i) :
    getCount (setCount c i v) j = getCount c j := by
  rw [getCount, setCount, List.getD_eq_getElem?_getD, List.getElem?_set_ne (Ne.symm h),
    ← List.getD_eq_getElem?_getD]
  rfl

theorem resetMode_count_self (d : Dist) (i : Nat) :
    ∀ pc ∈ resetMode d i, getCount pc.2 i = 0 := by
  intro pc hpc
  obtain ⟨pc₀, _, rfl⟩ := List.mem_map.mp hpc
  exact getCount_setCount_self pc₀.2 i

theorem resetMode_count_other (d : Dist) (i j : Nat) (h : j ≠ i) :
    (resetMode d i).map (fun pc => (pc.1, getCount pc.2 j)) =
      d.map (fun pc => (pc.1, getCount pc.2 j)) := by
  rw [resetMode, List.map_map]
  apply List.map_congr_left
  intro pc _
  simp only [Function.comp_apply]
  rw [getCount_setCount_ne pc.2 i j 0 h]

theorem condition_ok_support (d : Dist) (i v : Nat) (d' : Dist)
    (h : condition d i v = .ok d') :
    ∀ pc ∈ d', getCount pc.2 i = v ∧ ∃ q, (q, pc.2) ∈ d := by
  rw [condition] at h
  split at h
  · exact absurd h (by simp)
  · cases h
    intro pc hpc
    obtain ⟨pc₀, hpc₀, rfl⟩ := List.mem_map.mp hpc
    obtain ⟨hmem, hval⟩ := List.mem_filter.mp hpc₀
    refine ⟨by simpa using hval, pc₀.1, ?_⟩
    simpa using hmem

theorem runOps_append (I : Nat → ℚ → ℚ) (l₁ l₂ : List Op) (st : EngState) (rs : List ℚ) :
    runOps I (l₁ ++ l₂) st rs =
      match runOps I l₁ st rs with
      | .error e => .error e
      | .ok (st', rs') => runOps I l₂ st' rs' := by
  induction l₁ generalizing st rs with
  | nil => rfl
  | cons op l ih =>
      simp only [List.cons_append, runOps]
      cases applyOp I st rs op with
      | error e => rfl
      | ok p => exact ih p.1 p.2

theorem filter_beq_range_nil (k : Nat) : ∀ N, N ≤ k →
    (List.range N).filter (fun x => x == k) = []
  | 0, _ => rfl
  | N + 1, h => by
      rw [List.range_succ, List.filter_append, filter_beq_range_nil k N (Nat.le_of_succ_le h)]
      have : (N == k) = false := by simpa using Nat.ne_of_lt h
      simp [List.filter, this]

theorem filter_beq_range (k N : Nat) (h : k < N) :
    (List.range N).filter (fun x => x == k) = [k] := by
  induction N with
  | zero => omega
  | succ N ih =>
      rw [List.range_succ, List.filter_append]
      rcases Nat.lt_or_ge k N with h' | h'
      · rw [ih h']
        have : (N == k) = false := by simpa using (Nat.ne_of_gt h')
        simp [List.filter, this]
      · have hk : k = N := Nat.le_antisymm (Nat.lt_succ_iff.mp h) h'
        subst hk
        rw [filter_beq_range_nil k k (Nat.le_refl k)]
        simp [List.filter]

/-- C2: for two count-measured modes fed from the number-conserving
two-mode interaction applied to inputs with total photon count `n + m`,
every successful run records two count outcomes whose sum is `n + m`. -/
theorem photon_conservation (I : Nat → ℚ → ℚ) (n m : Nat) (rs : List ℚ)
    (res : Results) (st : EngState) (rs' : List ℚ)
    (h : engRun I (progNM n m) (initEng 2) rs = .ok (res, st, rs')) :
    ∃ a b, res.samples = [a, b] ∧ a + b = n + m := by
  have hpre : engRun I (progNM n m) (initEng 2) rs =
      (match runOps I [.measureFock none 0, .measureFock none 1]
          ⟨2, (List.range (n + m + 1)).map
              (fun k => (1 * bsProb n m k, [k, n + m - k])) ++ [],
            [none, none], [none, none], []⟩ rs with
        | .error e => .error e
        | .ok (st', rs₁) => .ok (⟨2, st'.measuredNow⟩, st', rs₁)) := rfl
  rw [hpre] at h; clear hpre
  set L : Dist := (List.range (n + m + 1)).map
      (fun k => (1 * bsProb n m k, [k, n + m - k])) ++ [] with hL
  -- the sampled entry is an entry of L
  have hne : L ≠ [] := by
    rw [hL]
    simp
  obtain ⟨k, hkr, hk⟩ : ∃ k, k < n + m + 1 ∧
      samplePair L (rs.headD 0) = (1 * bsProb n m k, [k, n + m - k]) := by
    have hmem := samplePair_mem L (rs.headD 0) hne
    nth_rewrite 1 [hL] at hmem
    rw [List.append_nil] at hmem
    obtain ⟨k, hk1, hk2⟩ := List.mem_map.mp hmem
    exact ⟨k, List.mem_range.mp hk1, hk2.symm⟩
  -- the filter underlying the first conditioning
  have hfil : L.filter (fun pc => getCount pc.2 0 == k) =
      [(1 * bsProb n m k, [k, n + m - k])] := by
    rw [hL, List.append_nil, List.filter_map]
    have hcomp : ((fun pc => getCount pc.2 0 == k) ∘
        (fun k' => ((1 * bsProb n m k' : ℚ), ([k', n + m - k'] : Config)))) =
        (fun k' => k' == k) := by
      funext k'
      simp [getCount]
    rw [hcomp, filter_beq_range k (n + m + 1) hkr]
    rfl
  -- unfold the first (sampling) measurement
  simp only [runOps, applyOp] at h
  rw [hk] at h
  simp only [getCount, List.getD_cons_zero] at h
  rcases eq_or_ne (bsProb n m k) 0 with hz | hz
  · have hcond : condition L 0 k = .error .zeroProbability := by
      simp only [condition, hfil, totalMass, List.map_cons, List.map_nil, List.sum_cons,
        List.sum_nil]
      rw [if_pos (by simp [hz])]
    rw [hcond] at h
    simp at h
  · have hcond : condition L 0 k =
        .ok [((1 * bsProb n m k) / (1 * bsProb n m k + 0), [k, n + m - k])] := by
      simp only [condition, hfil, totalMass, List.map_cons, List.map_nil, List.sum_cons,
        List.sum_nil]
      rw [if_neg (by simp [hz])]
    rw [hcond] at h
    have hw : (1 * bsProb n m k) / (1 * bsProb n m k + 0) = 1 := by
      rw [add_zero, one_mul, div_self hz]
    rw [hw] at h
    simp only [resetMode, List.map_cons, List.map_nil, setCount, List.set_cons_zero,
      updRec, List.set_cons_succ, runOps, applyOp, samplePair] at h
    simp only [List.getD_cons_succ, List.getD_cons_zero] at h
    have hcond2 : condition [((1 : ℚ), [0, n + m - k])] 1 (n + m - k) =
        .ok [((1 : ℚ), [0, n + m - k])] := by
      simp [condition, totalMass, getCount]
    rw [hcond2] at h
    simp only [List.map_cons, List.map_nil, List.set_cons_succ, List.set_cons_zero,
      Except.ok.injEq, Prod.mk.injEq] at h
    obtain ⟨hres, _, _⟩ := h
    refine ⟨k, n + m - k, ?_, by omega⟩
    rw [← hres]
    simp [Results.samples]

theorem photon_conservation_witness :
    ∃ a b, Results.samples ⟨2, [some 1, some 4]⟩ = [a, b] ∧ a + b = 2 + 3 :=
  photon_conservation defaultI 2 3 [1 / 3] ⟨2, [some 1, some 4]⟩
    ⟨2, [(1, [0, 0])], [some 1, some 4], [some 1, some 4], []⟩ []
    (by norm_num [engRun, progNM, runOps, applyOp, condition, totalMass, applyBS, bsProb,
      bsCoeff, getCount, setCount, resetMode, initEng, updRec, List.range_succ,
      List.replicate, Nat.factorial, samplePair])

set_option maxHeartbeats 1000000 in
theorem cell10_run (I : Nat → ℚ → ℚ) (rs : List ℚ) :
    engRun I cell10prog (initEng 2) rs =
      .ok (⟨2, [some 0, some 5]⟩,
           ⟨2, [(1, [0, 0])], [some 0, some 5], [some 0, some 5], []⟩, rs.tail) := by
  norm_num [engRun, cell10prog, runOps, applyOp, condition, totalMass, applyBS, bsProb,
    bsCoeff, getCount, setCount, resetMode, initEng, updRec, List.range_succ,
    List.replicate, Nat.factorial, samplePair]

set_option maxHeartbeats 2000000 in
theorem cell2_run (I : Nat → ℚ → ℚ) (rs : List ℚ) :
    ∃ k, k ≤ 5 ∧ engRun I cell2prog (initEng 2) rs =
      .ok (⟨2, [some k, none]⟩,
           ⟨2, [(1, [0, 5 - k])], [some k, none], [some k, none], []⟩, rs.tail) := by
  have h1 : engRun I cell2prog (initEng 2) rs =
      (match runOps I [.measureFock none 0]
          ⟨2, [(1 * bsProb 2 3 0, [0, 5]), (1 * bsProb 2 3 1, [1, 4]),
               (1 * bsProb 2 3 2, [2, 3]), (1 * bsProb 2 3 3, [3, 2]),
               (1 * bsProb 2 3 4, [4, 1]), (1 * bsProb 2 3 5, [5, 0])],
            [none, none], [none, none], []⟩ rs with
        | .error e => .error e
        | .ok (st', rs₁) => .ok (⟨2, st'.measuredNow⟩, st', rs₁)) := rfl
  rw [h1]
  simp only [runOps, applyOp, samplePair]
  split_ifs with h1 h2 h3 h4 h5
  · exact ⟨0, by norm_num, by norm_num [condition, totalMass, getCount, setCount,
      resetMode, updRec, bsProb, bsCoeff, Nat.factorial, List.range_succ]⟩
  · exact ⟨1, by norm_num, by norm_num [condition, totalMass, getCount, setCount,
      resetMode, updRec, bsProb, bsCoeff, Nat.factorial, List.range_succ]⟩
  · exact ⟨2, by norm_num, by norm_num [condition, totalMass, getCount, setCount,
      resetMode, updRec, bsProb, bsCoeff, Nat.factorial, List.range_succ]⟩
  · exact ⟨3, by norm_num, by norm_num [condition, totalMass, getCount, setCount,
      resetMode, updRec, bsProb, bsCoeff, Nat.factorial, List.range_succ]⟩
  · exact ⟨4, by norm_num, by norm_num [condition, totalMass, getCount, setCount,
      resetMode, updRec, bsProb, bsCoeff, Nat.factorial, List.range_succ]⟩
  · exact ⟨5, by norm_num, by norm_num [condition, totalMass, getCount, setCount,
      resetMode, updRec, bsProb, bsCoeff, Nat.factorial, List.range_succ]⟩

theorem cell6_after (I : Nat → ℚ → ℚ) (k : Nat) (rs : List ℚ) :
    engRun I cell6prog ⟨2, [(1, [0, 5 - k])], [some k, none], [some k, none], []⟩ rs =
      .ok (⟨2, [none, some (5 - k)]⟩,
           ⟨2, [(1, [0, 0])], [some k, some (5 - k)], [none, some (5 - k)], []⟩, rs.tail) := by
  norm_num [engRun, cell6prog, runOps, applyOp, condition, totalMass, getCount, setCount,
    resetMode, updRec, samplePair, List.replicate]

theorem cell20_run (I : Nat → ℚ → ℚ) (rs : List ℚ) :
    engRun I cell20prog (initEng 2) rs =
      .ok (⟨2, [some 0, none]⟩,
           ⟨2, [(1, [0, 0])], [some 0, none], [some 0, none], [(1, ((0 : ℚ)) ^ 2)]⟩,
           rs.tail) := by
  norm_num [engRun, cell20prog, runOps, applyOp, condition, totalMass, getCount, setCount,
    resetMode, updRec, samplePair, initEng, List.replicate, evalParam]

theorem cell22_run (I : Nat → ℚ → ℚ) (rs : List ℚ) :
    engRun I cell22prog (initEng 2) rs =
      .ok (⟨2, [some 0, none]⟩,
           ⟨2, [(1, [0, 0])], [some 0, none], [some 0, none], [(1, I cosIdx 0 + 2)]⟩,
           rs.tail) := by
  norm_num [engRun, cell22prog, runOps, applyOp, condition, totalMass, getCount, setCount,
    resetMode, updRec, samplePair, initEng, List.replicate, evalParam]

theorem cell13_run (I : Nat → ℚ → ℚ) (rs : List ℚ) :
    engRun I cell13prog (initEng 2) rs = .error .zeroProbability := by
  norm_num [engRun, cell13prog, runOps, applyOp, condition, totalMass, applyBS, bsProb,
    bsCoeff, getCount, setCount, resetMode, initEng, updRec, List.range_succ,
    List.replicate, Nat.factorial, samplePair]

theorem measureFock_select_zero_prob (I : Nat → ℚ → ℚ) (st : EngState) (i v : Nat)
    (rs : List ℚ)
    (h : totalMass (st.dist.filter (fun pc => getCount pc.2 i == v)) = 0) :
    applyOp I st rs (.measureFock (some v) i) = .error .zeroProbability := by
  simp [applyOp, condition, h]

theorem homodyne_select_no_check (I : Nat → ℚ → ℚ) (st : EngState) (x : ℚ) (i : Nat)
    (rs : List ℚ) :
    applyOp I st rs (.homodyneSel x i) = .ok ({ st with dist := resetMode st.dist i }, rs) :=
  rfl

theorem dgate_reg_resolution (I : Nat → ℚ → ℚ) (st : EngState) (i j v : Nat) (rs : List ℚ)
    (h : st.record.getD j none = some v) :
    applyOp I st rs (.dgate (.reg j) i) =
      .ok ({ st with applied := st.applied ++ [(i, (v : ℚ))] }, rs) := by
  rw [List.getD_eq_getElem?_getD] at h
  simp [applyOp, evalParam, h]

theorem measureFock_select_ok (I : Nat → ℚ → ℚ) (st : EngState) (i v : Nat) (rs : List ℚ)
    (d' : Dist) (h : condition st.dist i v = .ok d') :
    applyOp I st rs (.measureFock (some v) i) =
      .ok ({ st with dist := resetMode d' i,
                     record := updRec st.record i v,
                     measuredNow := updRec st.measuredNow i v }, rs) := by
  simp [applyOp, h]

/-- C1: the cell-10 program (prepare `(2, 3)`, default beamsplitter,
measure mode 0 post-selecting 0, measure mode 1) always succeeds, and every
run records the post-selected 0 for mode 0 and the count 5 for mode 1. -/
theorem post_selected_outcomes (I : Nat → ℚ → ℚ) (rs : List ℚ) :
    ∃ res st' rs', engRun I cell10prog (initEng 2) rs = .ok (res, st', rs') ∧
      res.record.getD 0 none = some 0 ∧ res.record.getD 1 none = some 5 ∧
      res.samples = [0, 5] := by
  refine ⟨_, _, _, cell10_run I rs, rfl, rfl, ?_⟩
  simp [Results.samples]

/-- C3: a count measurement post-selected on an outcome of zero conditioning
probability fails with the zero-probability error (also concretely: the
cell-13 warning's non-conserving selection `(1, 2)` fails), while a
post-selected homodyne measurement performs no such check and always
proceeds. -/
theorem zero_probability_check (I : Nat → ℚ → ℚ) :
    (∀ (st : EngState) (i v : Nat) (rs : List ℚ),
        totalMass (st.dist.filter (fun pc => getCount pc.2 i == v)) = 0 →
        applyOp I st rs (.measureFock (some v) i) = .error .zeroProbability) ∧
    (∀ rs, engRun I cell13prog (initEng 2) rs = .error .zeroProbability) ∧
    (∀ (st : EngState) (x : ℚ) (i : Nat) (rs : List ℚ),
        ∃ st', applyOp I st rs (.homodyneSel x i) = .ok (st', rs)) :=
  ⟨fun st i v rs h => measureFock_select_zero_prob I st i v rs h,
   fun rs => cell13_run I rs,
   fun st x i rs => ⟨_, homodyne_select_no_check I st x i rs⟩⟩

theorem zero_probability_check_witness :
    applyOp defaultI (initEng 2) [] (.measureFock (some 1) 0) =
        .error .zeroProbability ∧
      engRun defaultI cell13prog (initEng 2) [] = .error .zeroProbability ∧
      ∃ st', applyOp defaultI (initEng 2) [] (.homodyneSel 1 0) = .ok (st', []) :=
  ⟨(zero_probability_check defaultI).1 (initEng 2) 0 1 []
      (by norm_num [initEng, totalMass, getCount]),
   (zero_probability_check defaultI).2.1 [],
   (zero_probability_check defaultI).2.2 (initEng 2) 1 0 []⟩

/-- C4: an operation whose parameter references a previously measured mode
is applied with exactly the value recorded for that mode: the engine
resolves the reference before logging the gate application. -/
theorem measured_reference_resolution (I : Nat → ℚ → ℚ) (st : EngState) (i j v : Nat)
    (rs : List ℚ) (h : st.record.getD j none = some v) :
    applyOp I st rs (.dgate (.reg j) i) =
      .ok ({ st with applied := st.applied ++ [(i, (v : ℚ))] }, rs) :=
  dgate_reg_resolution I st i j v rs h

theorem measured_reference_resolution_witness :
    applyOp defaultI ⟨2, [(1, [0, 0])], [some 3, none], [none, none], []⟩ []
        (.dgate (.reg 0) 1) =
      .ok (⟨2, [(1, [0, 0])], [some 3, none], [none, none], [(1, (3 : ℚ))]⟩, []) := by
  simpa using measured_reference_resolution defaultI
    ⟨2, [(1, [0, 0])], [some 3, none], [none, none], []⟩ 1 0 3 [] rfl

/-- C5: running the cell-6 program on the same engine, without a reset,
continues from the state left by the cell-2 run: the second measurement
yields `m + n − n′ = 2 + 3 − n′`, the count determined by the first run. -/
theorem second_run_continues_state (I : Nat → ℚ → ℚ) (rs rs₂ : List ℚ) :
    ∃ k st₁ t₁ res₂ st₂ t₂, k ≤ 5 ∧
      engRun I cell2prog (initEng 2) rs = .ok (⟨2, [some k, none]⟩, st₁, t₁) ∧
      engRun I cell6prog st₁ rs₂ = .ok (res₂, st₂, t₂) ∧
      res₂.samples = [2 + 3 - k] := by
  obtain ⟨k, hk, hrun⟩ := cell2_run I rs
  exact ⟨k, _, _, _, _, _, hk, hrun, cell6_after I k rs₂, by simp [Results.samples]⟩

/-- C6: two runs of the post-selected cell-10 program on fresh engines,
whatever their random streams, produce identical sample lists: the
conditioned outcomes are deterministic. -/
theorem conditioned_runs_deterministic (I₁ I₂ : Nat → ℚ → ℚ) (rs₁ rs₂ : List ℚ)
    (res₁ res₂ : Results) (st₁ st₂ : EngState) (t₁ t₂ : List ℚ)
    (h₁ : engRun I₁ cell10prog (initEng 2) rs₁ = .ok (res₁, st₁, t₁))
    (h₂ : engRun I₂ cell10prog (initEng 2) rs₂ = .ok (res₂, st₂, t₂)) :
    res₁.samples = res₂.samples := by
  rw [cell10_run I₁ rs₁] at h₁
  rw [cell10_run I₂ rs₂] at h₂
  simp only [Except.ok.injEq, Prod.mk.injEq] at h₁ h₂
  rw [← h₁.1, ← h₂.1]

theorem conditioned_runs_deterministic_witness :
    Results.samples ⟨2, [some 0, some 5]⟩ = Results.samples ⟨2, [some 0, some 5]⟩ :=
  conditioned_runs_deterministic defaultI defaultI [] [0] _ _ _ _ _ _
    (cell10_run defaultI []) (cell10_run defaultI [0])

/-- C7: Results exposes outcomes in mode-index order and holds no outcome
for a mode never measured in the run: after cell 2, which measures only
mode 0, mode 1's entry is absent, while the cell-10 run exposes `[0, 5]`. -/
theorem results_by_mode (I : Nat → ℚ → ℚ) (rs : List ℚ) :
    (∃ k st₁ t₁, k ≤ 5 ∧
        engRun I cell2prog (initEng 2) rs = .ok (⟨2, [some k, none]⟩, st₁, t₁) ∧
        Results.samples ⟨2, [some k, none]⟩ = [k] ∧
        (⟨2, [some k, none]⟩ : Results).record.getD 1 none = none) ∧
    (∃ st₂ t₂, engRun I cell10prog (initEng 2) rs = .ok (⟨2, [some 0, some 5]⟩, st₂, t₂) ∧
        Results.samples ⟨2, [some 0, some 5]⟩ = [0, 5]) := by
  constructor
  · obtain ⟨k, hk, hrun⟩ := cell2_run I rs
    exact ⟨k, _, _, hk, hrun, by simp [Results.samples], rfl⟩
  · exact ⟨_, _, cell10_run I rs, by simp [Results.samples]⟩

/-- C8: a count measurement resets the measured mode to vacuum — its
post-measurement distribution is the conditioned one with the measured
mode zeroed — while the reset leaves every other mode's weighted counts
untouched. -/
theorem measurement_resets_only_measured_mode :
    (∀ (I : Nat → ℚ → ℚ) (st : EngState) (i v : Nat) (rs : List ℚ) (d' : Dist),
        condition st.dist i v = .ok d' →
        applyOp I st rs (.measureFock (some v) i) =
          .ok ({ st with dist := resetMode d' i,
                         record := updRec st.record i v,
                         measuredNow := updRec st.measuredNow i v }, rs)) ∧
    (∀ (d : Dist) (i : Nat), ∀ pc ∈ resetMode d i, getCount pc.2 i = 0) ∧
    (∀ (d : Dist) (i j : Nat), j ≠ i →
        (resetMode d i).map (fun pc => (pc.1, getCount pc.2 j)) =
          d.map (fun pc => (pc.1, getCount pc.2 j))) :=
  ⟨fun I st i v rs d' h => measureFock_select_ok I st i v rs d' h,
   resetMode_count_self, resetMode_count_other⟩

theorem measurement_resets_only_measured_mode_witness :
    applyOp defaultI ⟨2, [(1, [2, 3])], [none, none], [none, none], []⟩ []
        (.measureFock (some 2) 0) =
      .ok (⟨2, [(1, [0, 3])], [some 2, none], [some 2, none], []⟩, []) ∧
    getCount ((1, ([0, 3] : Config)) : ℚ × Config).2 0 = 0 ∧
    (resetMode [(1, [2, 3])] 0).map (fun pc => (pc.1, getCount pc.2 1)) =
      [((1 : ℚ), ([2, 3] : Config))].map (fun pc => (pc.1, getCount pc.2 1)) :=
  ⟨by
    have h := measurement_resets_only_measured_mode.1 defaultI
      ⟨2, [(1, [2, 3])], [none, none], [none, none], []⟩ 0 2 [] [(1, [2, 3])]
      (by norm_num [condition, totalMass, getCount])
    simpa using h,
   measurement_resets_only_measured_mode.2.1 [(1, [2, 3])] 0 (1, [0, 3])
     (by simp [resetMode, setCount]),
   measurement_resets_only_measured_mode.2.2 [(1, [2, 3])] 0 1 (by decide)⟩

/-- C9: a gate parameter may be classical processing over a measured-mode
reference — the square of the measured value in cell 20, the library cosine
plus 2 in cell 22 — and the engine applies the gate with the expression
evaluated on the resolved measured value (0, the recorded outcome). -/
theorem classical_processing_of_reference (I : Nat → ℚ → ℚ) (rs : List ℚ) :
    engRun I cell20prog (initEng 2) rs =
      .ok (⟨2, [some 0, none]⟩,
           ⟨2, [(1, [0, 0])], [some 0, none], [some 0, none], [(1, ((0 : ℚ)) ^ 2)]⟩,
           rs.tail) ∧
    engRun I cell22prog (initEng 2) rs =
      .ok (⟨2, [some 0, none]⟩,
           ⟨2, [(1, [0, 0])], [some 0, none], [some 0, none], [(1, I cosIdx 0 + 2)]⟩,
           rs.tail) :=
  ⟨cell20_run I rs, cell22_run I rs⟩

theorem seed42_stream : randomsFromSeed 42 2 = [496027 / 1000000, 302264 / 1000000] := by
  norm_num [randomsFromSeed, lcgVals, lcgStep, List.range_succ]

set_option maxHeartbeats 4000000 in
theorem seed42_cell2 : engRun defaultI cell2prog (initEng 2) (randomsFromSeed 42 2) =
    .ok (⟨2, [some 2, none]⟩,
         ⟨2, [(1, [0, 3])], [some 2, none], [some 2, none], []⟩,
         [302264 / 1000000]) := by
  rw [seed42_stream]
  norm_num [engRun, cell2prog, runOps, applyOp, condition, totalMass, applyBS, bsProb,
    bsCoeff, getCount, setCount, resetMode, initEng, updRec, List.range_succ,
    List.replicate, Nat.factorial, samplePair]

theorem seed42_cell6 : engRun defaultI cell6prog
    ⟨2, [(1, [0, 3])], [some 2, none], [some 2, none], []⟩ [302264 / 1000000] =
    .ok (⟨2, [none, some 3]⟩,
         ⟨2, [(1, [0, 0])], [some 2, some 3], [none, some 3], []⟩, []) := by
  have h := cell6_after defaultI 2 [302264 / 1000000]
  norm_num at h
  exact h

/-- C10: the notebook's stochastic sample lists are a deterministic function
of the fixed global random seed — equal seeds give equal sampled outcomes —
and at the scripted seed 42 the two runs sample the counts 2 and 3. -/
theorem samples_determined_by_seed :
    (∀ s₁ s₂ : Nat, s₁ = s₂ → notebookSamples s₁ = notebookSamples s₂) ∧
    notebookSamples 42 = some ([2], [3]) := by
  constructor
  · intro s₁ s₂ h
    rw [h]
  · simp only [notebookSamples, seed42_cell2, seed42_cell6, Except.toOption, Option.bind,
      Option.map, Results.samples]
    simp

theorem samples_determined_by_seed_witness :
    notebookSamples 42 = notebookSamples 42 :=
  samples_determined_by_seed.1 42 42 rfl

end GKPSens
